import Mathlib

/-!
Shallow embedding of src/odds.js (mudaecalc): a card-game odds calculator.
Statistics records are flat records of integers and one boolean; odds are
computed with exact rational arithmetic standing in for JS number arithmetic.
Upgrade selections are embedded as association lists of (name, level) pairs,
mirroring Object.entries of the JS upgrades object.
-/

namespace Mudae

/-- const CARD_TOTAL = 43848 (src/odds.js line 2). -/
def CARD_TOTAL : Int := 43848

/-- The flat statistics record of src/odds.js: all numeric fields are integers
per the data model, og_server is a boolean. -/
structure Stats where
  rolls : Int
  w_slots : Int
  sw_slots : Int
  w_boost : Int
  sw_boost : Int
  disabled_cards : Int
  cards_left : Int
  cards_claimed : Int
  kp_limit : Int
  kp_usage : Int
  kp_bonus : Int
  og_server : Bool
  tuto_lvl : Int
  persrare : Int
deriving Repr, DecidableEq

/-- defaultStats() from src/odds.js lines 17 to 34. -/
def defaultStats : Stats where
  rolls := 10
  w_slots := 5
  sw_slots := 1
  w_boost := 0
  sw_boost := 0
  disabled_cards := 0
  cards_left := CARD_TOTAL
  cards_claimed := 0
  kp_limit := 100
  kp_usage := 100
  kp_bonus := 0
  og_server := false
  tuto_lvl := 0
  persrare := 1

/-- The tiered Ruby upgrade effect (src/odds.js lines 9 to 14): each of the
four threshold bonuses fires once when the level reaches its tier. -/
def rubyEffect (s : Stats) (level : Int) : Stats :=
  let s1 := if 1 ≤ level then { s with w_slots := s.w_slots + 2 } else s
  let s2 := if 2 ≤ level then { s1 with w_boost := s1.w_boost + 50 } else s1
  let s3 := if 3 ≤ level then { s2 with kp_usage := s2.kp_usage - 20 } else s2
  if 4 ≤ level then { s3 with rolls := s3.rolls + 2 } else s3

/-- The UPGRADE_EFFECTS dispatch table (src/odds.js lines 4 to 15): a partial
map from upgrade name to an effect on the record; unknown names are absent. -/
def UPGRADE_EFFECTS (name : String) : Option (Stats → Int → Stats) :=
  if name = "Bronze" then some (fun s level => { s with w_slots := s.w_slots + level * 1 })
  else if name = "Silver" then some (fun s level => { s with w_boost := s.w_boost + level * 25 })
  else if name = "Gold" then some (fun s level => { s with kp_usage := s.kp_usage - level * 10 })
  else if name = "Sapphire" then some (fun s level => { s with rolls := s.rolls + level * 1 })
  else if name = "Ruby" then some rubyEffect
  else none

/-- One iteration of the forEach loop in computeEffectiveStats
(src/odds.js lines 51 to 56): the entry is applied only when its level is
positive and its name is in the dispatch table. -/
def applyEntry (s : Stats) (entry : String × Int) : Stats :=
  let nLevel := entry.2
  if 0 < nLevel then
    match UPGRADE_EFFECTS entry.1 with
    | some eff => eff s nLevel
    | none => s
  else s

/-- tutoCheck (src/odds.js lines 40 to 46): tiered, mutually exclusive
sw_boost bonus from the tutorial level. -/
def tutoCheck (stats : Stats) : Stats :=
  if 16 ≤ stats.tuto_lvl then { stats with sw_boost := stats.sw_boost + 100 }
  else if 10 ≤ stats.tuto_lvl then { stats with sw_boost := stats.sw_boost + 50 }
  else stats

/-- computeEffectiveStats (src/odds.js lines 48 to 65): fold the upgrade
entries over a copy of the base record, add the og_server roll bonus, apply
the tutorial bonus, and recompute cards_claimed. -/
def computeEffectiveStats (baseStats : Stats) (upgrades : List (String × Int)) : Stats :=
  let stats := upgrades.foldl applyEntry baseStats
  let stats := if stats.og_server then { stats with rolls := stats.rolls + 3 } else stats
  let stats := tutoCheck stats
  { stats with cards_claimed := CARD_TOTAL - stats.cards_left }

/-- Object-level rendering of computeEffectiveStats: JS objects are heap
references, so the state of the two objects involved (the caller's baseStats
object and the stats object created by the spread on line 49) is threaded
explicitly as a pair (baseStats object value, stats object value). Every
assignment in the source writes the stats object; the function returns the
final value of the caller's object paired with the returned record. -/
def computeEffectiveStatsObjects (baseStats : Stats) (upgrades : List (String × Int)) :
    Stats × Stats :=
  let st : Stats × Stats := (baseStats, baseStats)
  let st := upgrades.foldl (fun p e => (p.1, applyEntry p.2 e)) st
  let st := (st.1, if st.2.og_server then { st.2 with rolls := st.2.rolls + 3 } else st.2)
  let st := (st.1, tutoCheck st.2)
  let st := (st.1, { st.2 with cards_claimed := CARD_TOTAL - st.2.cards_left })
  st

/-- cardsAvailable (src/odds.js lines 36 to 38). -/
def cardsAvailable (stats : Stats) : Int :=
  stats.cards_left - stats.disabled_cards

/-- The five-field odds result of calculateOdds, with exact rationals standing
in for JS numbers. -/
structure OddsResult where
  specific_roll_odds : ℚ
  specific_wish_odds : ℚ
  wish_odds : ℚ
  star_wish_odds : ℚ
  kspawn_odds : ℚ
deriving Repr, DecidableEq

/-- calculateOdds (src/odds.js lines 67 to 95). -/
def calculateOdds (stats : Stats) : OddsResult :=
  let available := cardsAvailable stats
  if available ≤ 0 then
    { specific_roll_odds := 0
      specific_wish_odds := 0
      wish_odds := 0
      star_wish_odds := 0
      kspawn_odds := 0 }
  else
    let base : ℚ := 1 / (available : ℚ)
    let wishMult : ℚ := 1 + (stats.w_boost : ℚ) / 100
    let starMult : ℚ := 1 + ((stats.w_boost : ℚ) + (stats.sw_boost : ℚ)) / 100
    let specific_roll_odds := base
    let specific_wish_odds := base * wishMult
    let normalSlots : ℚ := max 0 ((stats.w_slots : ℚ) - (stats.sw_slots : ℚ))
    let wish_odds := normalSlots * base * wishMult
    let star_wish_odds := (stats.sw_slots : ℚ) * base * starMult
    let kRaw := ((stats.cards_claimed : ℚ) * (50 / max 1 (stats.persrare : ℚ))) / (available : ℚ)
    let kspawn_odds := max 0 (min 1 kRaw)
    { specific_roll_odds := specific_roll_odds
      specific_wish_odds := specific_wish_odds
      wish_odds := wish_odds
      star_wish_odds := star_wish_odds
      kspawn_odds := kspawn_odds }

/-- The data-model constraints of section 3 of the spec that carry content in
the embedding: the listed nonnegativity bounds and the persrare lower bound.
Fields documented as plain int (w_boost, sw_boost, kp_limit, kp_usage,
kp_bonus) are unconstrained. -/
def ValidStats (s : Stats) : Prop :=
  0 ≤ s.rolls ∧ 0 ≤ s.w_slots ∧ 0 ≤ s.sw_slots ∧ 0 ≤ s.disabled_cards ∧
  0 ≤ s.cards_left ∧ 0 ≤ s.cards_claimed ∧ 0 ≤ s.tuto_lvl ∧ 1 ≤ s.persrare

instance (s : Stats) : Decidable (ValidStats s) := by
  unfold ValidStats; infer_instance

/-- The fixed enumerated set of recognized upgrade names. -/
def knownUpgradeNames : List String :=
  ["Bronze", "Silver", "Gold", "Sapphire", "Ruby"]

/-!
Helper development: every applied entry amounts to adding a quadruple of
deltas to the four fields (w_slots, w_boost, kp_usage, rolls), which makes
entry application commutative and frame-preserving on the other fields.
-/

/-- The additive contribution of one upgrade entry to
(w_slots, w_boost, kp_usage, rolls). -/
def entryDelta (e : String × Int) : Int × Int × Int × Int :=
  if 0 < e.2 then
    if e.1 = "Bronze" then (e.2 * 1, 0, 0, 0)
    else if e.1 = "Silver" then (0, e.2 * 25, 0, 0)
    else if e.1 = "Gold" then (0, 0, -(e.2 * 10), 0)
    else if e.1 = "Sapphire" then (0, 0, 0, e.2 * 1)
    else if e.1 = "Ruby" then
      (if 1 ≤ e.2 then 2 else 0, if 2 ≤ e.2 then 50 else 0,
       if 3 ≤ e.2 then -20 else 0, if 4 ≤ e.2 then 2 else 0)
    else (0, 0, 0, 0)
  else (0, 0, 0, 0)

/-- Add a delta quadruple to the four mutable-by-upgrade fields. -/
def addDelta (s : Stats) (d : Int × Int × Int × Int) : Stats :=
  { s with
    w_slots := s.w_slots + d.1
    w_boost := s.w_boost + d.2.1
    kp_usage := s.kp_usage + d.2.2.1
    rolls := s.rolls + d.2.2.2 }

theorem rubyEffect_eq_delta (s : Stats) (level : Int) :
    rubyEffect s level = addDelta s
      (if 1 ≤ level then 2 else 0, if 2 ≤ level then 50 else 0,
       if 3 ≤ level then -20 else 0, if 4 ≤ level then 2 else 0) := by
  simp only [rubyEffect, addDelta]
  split_ifs <;> simp <;> omega

theorem applyEntry_eq_addDelta (s : Stats) (e : String × Int) :
    applyEntry s e = addDelta s (entryDelta e) := by
  obtain ⟨name, level⟩ := e
  by_cases h0 : 0 < level
  · simp only [applyEntry, entryDelta, if_pos h0, UPGRADE_EFFECTS]
    by_cases hb : name = "Bronze"
    · simp [hb, addDelta]
    by_cases hs : name = "Silver"
    · simp [hb, hs, addDelta]
    by_cases hg : name = "Gold"
    · simp [hb, hs, hg, addDelta, sub_eq_add_neg]
    by_cases hp : name = "Sapphire"
    · simp [hb, hs, hg, hp, addDelta]
    by_cases hr : name = "Ruby"
    · simp [hb, hs, hg, hp, hr, rubyEffect_eq_delta]
    · simp [hb, hs, hg, hp, hr, addDelta]
  · simp [applyEntry, entryDelta, h0, addDelta]

theorem addDelta_addDelta (s : Stats) (d1 d2 : Int × Int × Int × Int) :
    addDelta (addDelta s d1) d2 = addDelta (addDelta s d2) d1 := by
  simp [addDelta, Stats.mk.injEq]
  omega

theorem applyEntry_comm (s : Stats) (a b : String × Int) :
    applyEntry (applyEntry s a) b = applyEntry (applyEntry s b) a := by
  simp only [applyEntry_eq_addDelta]
  exact addDelta_addDelta s (entryDelta a) (entryDelta b)

theorem foldl_applyEntry_perm {u1 u2 : List (String × Int)} (h : u1.Perm u2) :
    ∀ s : Stats, u1.foldl applyEntry s = u2.foldl applyEntry s := by
  induction h with
  | nil => intro s; rfl
  | cons x _ ih =>
    intro s
    simp only [List.foldl_cons]
    exact ih (applyEntry s x)
  | swap x y l =>
    intro s
    simp only [List.foldl_cons]
    rw [applyEntry_comm]
  | trans _ _ ih1 ih2 =>
    intro s
    exact (ih1 s).trans (ih2 s)

/-- The tuple of fields no step of computeEffectiveStats writes. -/
def frameFields (s : Stats) : Int × Int × Int × Int × Int × Bool × Int × Int :=
  (s.sw_slots, s.disabled_cards, s.cards_left, s.kp_limit, s.kp_bonus,
   s.og_server, s.tuto_lvl, s.persrare)

theorem frameFields_applyEntry (s : Stats) (e : String × Int) :
    frameFields (applyEntry s e) = frameFields s := by
  rw [applyEntry_eq_addDelta]; rfl

theorem frameFields_foldl (u : List (String × Int)) :
    ∀ s : Stats, frameFields (u.foldl applyEntry s) = frameFields s := by
  induction u with
  | nil => intro s; rfl
  | cons e t ih =>
    intro s
    simp only [List.foldl_cons]
    exact (ih (applyEntry s e)).trans (frameFields_applyEntry s e)

theorem frameFields_tutoCheck (s : Stats) :
    frameFields (tutoCheck s) = frameFields s := by
  unfold tutoCheck
  split_ifs <;> rfl

theorem rubyEffect_of_le4 (s : Stats) (level : Int) (h : 4 ≤ level) :
    rubyEffect s level = rubyEffect s 4 := by
  unfold rubyEffect
  split_ifs <;> first | rfl | omega

theorem computeEffectiveStatsObjects_spec (baseStats : Stats)
    (upgrades : List (String × Int)) :
    computeEffectiveStatsObjects baseStats upgrades =
      (baseStats, computeEffectiveStats baseStats upgrades) := by
  unfold computeEffectiveStatsObjects computeEffectiveStats
  have key : ∀ (u : List (String × Int)) (p : Stats × Stats),
      u.foldl (fun p e => (p.1, applyEntry p.2 e)) p = (p.1, u.foldl applyEntry p.2) := by
    intro u
    induction u with
    | nil => intro p; rfl
    | cons e t ih =>
      intro p
      simp only [List.foldl_cons]
      exact ih (p.1, applyEntry p.2 e)
  simp only [key]

theorem frameFields_set_claimed (s : Stats) (v : Int) :
    frameFields { s with cards_claimed := v } = frameFields s := rfl

theorem frameFields_ogBonus (s : Stats) :
    frameFields (if s.og_server then { s with rolls := s.rolls + 3 } else s) =
      frameFields s := by
  split_ifs <;> rfl

/-- An upgrade entry is applied (rather than skipped) exactly when its level is
positive and its name is recognized. -/
def validEntry (e : String × Int) : Bool :=
  decide (0 < e.2) && decide (e.1 ∈ knownUpgradeNames)

theorem UPGRADE_EFFECTS_eq_none (name : String) (h : name ∉ knownUpgradeNames) :
    UPGRADE_EFFECTS name = none := by
  simp only [knownUpgradeNames, List.mem_cons, List.mem_singleton, not_or] at h
  obtain ⟨hb, hs, hg, hp, hr, -⟩ := h
  simp [UPGRADE_EFFECTS, hb, hs, hg, hp, hr]

theorem applyEntry_skip (s : Stats) (e : String × Int) (h : validEntry e = false) :
    applyEntry s e = s := by
  simp only [validEntry, Bool.and_eq_false_iff, decide_eq_false_iff_not] at h
  rcases h with h | h
  · simp [applyEntry, h]
  · simp only [applyEntry]
    split_ifs with h0
    · rw [UPGRADE_EFFECTS_eq_none e.1 h]
    · rfl

/-!
The claim theorems.
-/

/-- C1: whenever the available pool (cards_left minus disabled_cards) is
nonpositive, calculateOdds returns the odds result whose five fields are all
exactly 0 (in the exact-rational embedding there is no NaN or Infinity to
produce, and the degenerate branch returns the literal zero record). -/
theorem C1_degenerate_all_zero (s : Stats) (h : cardsAvailable s ≤ 0) :
    calculateOdds s =
      { specific_roll_odds := 0, specific_wish_odds := 0, wish_odds := 0,
        star_wish_odds := 0, kspawn_odds := 0 } := by
  simp [calculateOdds, h]

theorem C1_degenerate_all_zero_holds :
    cardsAvailable { defaultStats with cards_left := 0 } ≤ 0 ∧
    calculateOdds { defaultStats with cards_left := 0 } =
      { specific_roll_odds := 0, specific_wish_odds := 0, wish_odds := 0,
        star_wish_odds := 0, kspawn_odds := 0 } :=
  ⟨by decide, C1_degenerate_all_zero { defaultStats with cards_left := 0 } (by decide)⟩

/-- C2 refuted: the record with cards_left = 1 and w_boost = -200 and the
other fields at their defaults satisfies every constraint section 3 places on
the fields (w_boost is documented as a plain int) and has available = 1 > 0,
yet specific_wish_odds is negative (hence outside [0,1]) and wish_odds and
star_wish_odds are negative (hence outside [0, infinity)). -/
theorem C2_range_counterexample :
    ValidStats { defaultStats with cards_left := 1, w_boost := -200 } ∧
    0 < cardsAvailable { defaultStats with cards_left := 1, w_boost := -200 } ∧
    (calculateOdds { defaultStats with cards_left := 1, w_boost := -200 }).specific_wish_odds < 0 ∧
    (calculateOdds { defaultStats with cards_left := 1, w_boost := -200 }).wish_odds < 0 ∧
    (calculateOdds { defaultStats with cards_left := 1, w_boost := -200 }).star_wish_odds < 0 := by
  refine ⟨by decide, by decide, ?_, ?_, ?_⟩ <;>
    norm_num [calculateOdds, cardsAvailable, defaultStats, CARD_TOTAL]

/-- C2 (amended): for every statistics record meeting the section 3
constraints which in addition has nonnegative w_boost and sw_boost, and with
available > 0, the outputs specific_roll_odds and kspawn_odds of
calculateOdds lie in [0,1], and specific_wish_odds, wish_odds and
star_wish_odds lie in [0, infinity). Without the nonnegativity of the boosts
three outputs can be negative, and even with it specific_wish_odds can
exceed 1 (for example available = 1 with w_boost = 100 gives 2). -/
theorem C2_output_ranges (s : Stats) (hv : ValidStats s)
    (hwb : 0 ≤ s.w_boost) (hsb : 0 ≤ s.sw_boost)
    (ha : 0 < cardsAvailable s) :
    (0 ≤ (calculateOdds s).specific_roll_odds ∧ (calculateOdds s).specific_roll_odds ≤ 1) ∧
    (0 ≤ (calculateOdds s).kspawn_odds ∧ (calculateOdds s).kspawn_odds ≤ 1) ∧
    0 ≤ (calculateOdds s).specific_wish_odds ∧
    0 ≤ (calculateOdds s).wish_odds ∧
    0 ≤ (calculateOdds s).star_wish_odds := by
  have ha' : ¬ (cardsAvailable s ≤ 0) := not_le.mpr ha
  have h1 : (1 : ℚ) ≤ (cardsAvailable s : ℚ) := by exact_mod_cast ha
  have h0 : (0 : ℚ) < (cardsAvailable s : ℚ) := lt_of_lt_of_le zero_lt_one h1
  have hwb' : (0 : ℚ) ≤ (s.w_boost : ℚ) := by exact_mod_cast hwb
  have hsb' : (0 : ℚ) ≤ (s.sw_boost : ℚ) := by exact_mod_cast hsb
  have hsw' : (0 : ℚ) ≤ (s.sw_slots : ℚ) := by exact_mod_cast hv.2.2.1
  have hbp : (0 : ℚ) ≤ 1 / (cardsAvailable s : ℚ) := by positivity
  have hm1 : (0 : ℚ) ≤ 1 + (s.w_boost : ℚ) / 100 :=
    add_nonneg zero_le_one (div_nonneg hwb' (by norm_num))
  have hm2 : (0 : ℚ) ≤ 1 + ((s.w_boost : ℚ) + (s.sw_boost : ℚ)) / 100 :=
    add_nonneg zero_le_one (div_nonneg (add_nonneg hwb' hsb') (by norm_num))
  simp only [calculateOdds, ha', if_false]
  refine ⟨⟨hbp, ?_⟩, ⟨le_max_left 0 _, max_le zero_le_one (min_le_left 1 _)⟩, ?_, ?_, ?_⟩
  · exact (div_le_one h0).mpr h1
  · exact mul_nonneg hbp hm1
  · exact mul_nonneg (mul_nonneg (le_max_left 0 _) hbp) hm1
  · exact mul_nonneg (mul_nonneg hsw' hbp) hm2

theorem C2_output_ranges_holds :
    ValidStats defaultStats ∧ 0 ≤ defaultStats.w_boost ∧ 0 ≤ defaultStats.sw_boost ∧
    0 < cardsAvailable defaultStats ∧
    ((0 ≤ (calculateOdds defaultStats).specific_roll_odds ∧
        (calculateOdds defaultStats).specific_roll_odds ≤ 1) ∧
      (0 ≤ (calculateOdds defaultStats).kspawn_odds ∧
        (calculateOdds defaultStats).kspawn_odds ≤ 1) ∧
      0 ≤ (calculateOdds defaultStats).specific_wish_odds ∧
      0 ≤ (calculateOdds defaultStats).wish_odds ∧
      0 ≤ (calculateOdds defaultStats).star_wish_odds) :=
  ⟨by decide, by decide, by decide, by decide,
    C2_output_ranges defaultStats (by decide) (by decide) (by decide) (by decide)⟩

/-- C3: in the object-level rendering of computeEffectiveStats, where the
caller's baseStats object and the spread-created stats object are threaded
explicitly, the final value of the caller's object equals its initial value
(the base record is never mutated), and the returned record is the one
computeEffectiveStats computes. -/
theorem C3_base_not_mutated (base : Stats) (u : List (String × Int)) :
    (computeEffectiveStatsObjects base u).1 = base ∧
    (computeEffectiveStatsObjects base u).2 = computeEffectiveStats base u := by
  rw [computeEffectiveStatsObjects_spec]
  exact ⟨rfl, rfl⟩

/-- C4 refuted: with og_server = true in the base record, an empty upgrade
selection still changes rolls (the flat og_server bonus applies regardless of
upgrades), so fields other than cards_claimed do change. -/
theorem C4_empty_counterexample :
    (computeEffectiveStats { defaultStats with og_server := true } []).rolls ≠
      { defaultStats with og_server := true }.rolls := by
  decide

/-- C4 (amended): for every base record with og_server = false and
tuto_lvl < 10, computeEffectiveStats with an empty upgrade selection returns
the base record with every field unchanged except cards_claimed, which is
recomputed as CARD_TOTAL - cards_left. When og_server is set the rolls field
also changes, and when tuto_lvl is at least 10 the sw_boost field also
changes, since those two bonuses apply regardless of the upgrade selection. -/
theorem C4_empty_upgrades (base : Stats) (hog : base.og_server = false)
    (ht : base.tuto_lvl < 10) :
    computeEffectiveStats base [] =
      { base with cards_claimed := CARD_TOTAL - base.cards_left } := by
  simp only [computeEffectiveStats, List.foldl_nil, hog, Bool.false_eq_true,
    if_false, tutoCheck]
  rw [if_neg (by omega), if_neg (by omega), hog]

theorem C4_empty_upgrades_holds :
    defaultStats.og_server = false ∧ defaultStats.tuto_lvl < 10 ∧
    computeEffectiveStats defaultStats [] =
      { defaultStats with cards_claimed := CARD_TOTAL - defaultStats.cards_left } :=
  ⟨rfl, by decide, C4_empty_upgrades defaultStats rfl (by decide)⟩

/-- C5: applying the Ruby upgrade at any level at least 4 produces the same
effective record as applying it at level 4: each of the four tier bonuses
fires at most once however far the level exceeds 4. -/
theorem C5_ruby_tier_cap (base : Stats) (level : Int) (h : 4 ≤ level) :
    computeEffectiveStats base [("Ruby", level)] =
      computeEffectiveStats base [("Ruby", 4)] := by
  have h0 : (0 : Int) < level := by omega
  have key : ∀ l : Int, 0 < l → applyEntry base ("Ruby", l) = rubyEffect base l := by
    intro l hl
    simp [applyEntry, UPGRADE_EFFECTS, hl]
  simp only [computeEffectiveStats, List.foldl_cons, List.foldl_nil]
  rw [key level h0, key 4 (by norm_num), rubyEffect_of_le4 base level h]

theorem C5_ruby_tier_cap_holds :
    (4 : Int) ≤ 400 ∧
    computeEffectiveStats defaultStats [("Ruby", 400)] =
      computeEffectiveStats defaultStats [("Ruby", 4)] :=
  ⟨by norm_num, C5_ruby_tier_cap defaultStats 400 (by norm_num)⟩

/-- C6: the result of computeEffectiveStats does not depend on the order of
the upgrade entries: any permutation of the entry list yields the same
effective record. -/
theorem C6_order_independent (base : Stats) (u1 u2 : List (String × Int))
    (h : u1.Perm u2) :
    computeEffectiveStats base u1 = computeEffectiveStats base u2 := by
  simp only [computeEffectiveStats]
  rw [foldl_applyEntry_perm h base]

theorem C6_order_independent_holds :
    List.Perm [("Bronze", (2 : Int)), ("Silver", 1)] [("Silver", 1), ("Bronze", 2)] ∧
    computeEffectiveStats defaultStats [("Bronze", 2), ("Silver", 1)] =
      computeEffectiveStats defaultStats [("Silver", 1), ("Bronze", 2)] :=
  ⟨List.Perm.swap ("Silver", 1) ("Bronze", 2) [],
    C6_order_independent defaultStats _ _ (List.Perm.swap ("Silver", 1) ("Bronze", 2) [])⟩

/-- C7: the tutorial bonus to sw_boost is tiered and mutually exclusive:
at tuto_lvl at least 16 the bonus is exactly +100 (not +150), else at
tuto_lvl at least 10 it is exactly +50, else sw_boost is unchanged; in
particular tuto_lvl = 16 and tuto_lvl = 100 give the identical bonus. -/
theorem C7_tuto_tiers (s : Stats) :
    (16 ≤ s.tuto_lvl → (tutoCheck s).sw_boost = s.sw_boost + 100) ∧
    (10 ≤ s.tuto_lvl → s.tuto_lvl < 16 → (tutoCheck s).sw_boost = s.sw_boost + 50) ∧
    (s.tuto_lvl < 10 → (tutoCheck s).sw_boost = s.sw_boost) ∧
    (tutoCheck { s with tuto_lvl := 16 }).sw_boost =
      (tutoCheck { s with tuto_lvl := 100 }).sw_boost := by
  refine ⟨fun h => ?_, fun h1 h2 => ?_, fun h => ?_, ?_⟩
  · simp only [tutoCheck]
    rw [if_pos h]
  · simp only [tutoCheck]
    rw [if_neg (by omega), if_pos h1]
  · simp only [tutoCheck]
    rw [if_neg (by omega), if_neg (by omega)]
  · simp [tutoCheck]

theorem C7_tuto_tiers_holds :
    (tutoCheck { defaultStats with tuto_lvl := 16 }).sw_boost =
        { defaultStats with tuto_lvl := 16 }.sw_boost + 100 ∧
    (tutoCheck { defaultStats with tuto_lvl := 12 }).sw_boost =
        { defaultStats with tuto_lvl := 12 }.sw_boost + 50 ∧
    (tutoCheck { defaultStats with tuto_lvl := 3 }).sw_boost =
        { defaultStats with tuto_lvl := 3 }.sw_boost :=
  ⟨(C7_tuto_tiers { defaultStats with tuto_lvl := 16 }).1 (by decide),
    (C7_tuto_tiers { defaultStats with tuto_lvl := 12 }).2.1 (by decide) (by decide),
    (C7_tuto_tiers { defaultStats with tuto_lvl := 3 }).2.2.1 (by decide)⟩

/-- C8: entries whose level is nonpositive and entries whose name is not one
of Bronze, Silver, Gold, Sapphire or Ruby have no effect: removing every such
entry from the upgrade selection leaves the result of computeEffectiveStats
unchanged, so effects are applied only at positive levels of recognized
names. -/
theorem C8_invalid_entries_ignored (base : Stats) (u : List (String × Int)) :
    computeEffectiveStats base u =
      computeEffectiveStats base (u.filter validEntry) := by
  simp only [computeEffectiveStats]
  suffices hf : ∀ (v : List (String × Int)) (s : Stats),
      v.foldl applyEntry s = (v.filter validEntry).foldl applyEntry s by
    rw [hf]
  intro v
  induction v with
  | nil => intro s; rfl
  | cons e t ih =>
    intro s
    rcases hv : validEntry e with _ | _
    · rw [List.filter_cons_of_neg (by simp [hv]), List.foldl_cons,
        applyEntry_skip s e hv]
      exact ih s
    · rw [List.filter_cons_of_pos (by simp [hv]), List.foldl_cons, List.foldl_cons]
      exact ih (applyEntry s e)

/-- C9: the record returned by computeEffectiveStats always satisfies
cards_claimed = 43848 - cards_left (with 43848 = CARD_TOTAL), whatever
cards_claimed value the base record carried. -/
theorem C9_cards_claimed_derived (base : Stats) (u : List (String × Int)) :
    (computeEffectiveStats base u).cards_claimed =
      43848 - (computeEffectiveStats base u).cards_left := rfl

/-- C10: computeEffectiveStats can change only rolls, w_slots, w_boost,
sw_boost, kp_usage and cards_claimed: the returned record agrees with the
base record on sw_slots, disabled_cards, cards_left, kp_limit, kp_bonus,
og_server, tuto_lvl and persrare. -/
theorem C10_untouched_fields (base : Stats) (u : List (String × Int)) :
    (computeEffectiveStats base u).sw_slots = base.sw_slots ∧
    (computeEffectiveStats base u).disabled_cards = base.disabled_cards ∧
    (computeEffectiveStats base u).cards_left = base.cards_left ∧
    (computeEffectiveStats base u).kp_limit = base.kp_limit ∧
    (computeEffectiveStats base u).kp_bonus = base.kp_bonus ∧
    (computeEffectiveStats base u).og_server = base.og_server ∧
    (computeEffectiveStats base u).tuto_lvl = base.tuto_lvl ∧
    (computeEffectiveStats base u).persrare = base.persrare := by
  have h : frameFields (computeEffectiveStats base u) = frameFields base := by
    simp only [computeEffectiveStats, frameFields_set_claimed, frameFields_tutoCheck,
      frameFields_ogBonus, frameFields_foldl]
  simpa [frameFields, Prod.mk.injEq] using h

end Mudae
